import Mathlib

/-!
Verification development for the EFEM communication and automation-sequencing
engine (repository `Python_analysis`).  The Python sources `EFEM_015.py`,
`EFEM_022.py` and `efem_gui_tester.py` are embedded shallowly: strings become
`List Char`, the relevant functions become executable Lean definitions that
mirror the Python control flow statement by statement, and the claims of the
specification are settled as theorems about those definitions.
-/

namespace Efem

/-- Python strings are modelled as lists of characters. -/
abbrev PyStr := List Char

/-- Characters removed by Python's `str.strip()` (whitespace). -/
def isPySpace (c : Char) : Bool :=
  c = ' ' || c = '\t' || c = '\n' || c = '\r' || c = '\x0b' || c = '\x0c'

/-- Python `s.strip()`: drop whitespace from both ends. -/
def pyStrip (s : PyStr) : PyStr :=
  ((s.dropWhile isPySpace).reverse.dropWhile isPySpace).reverse

/-- Python `s.strip(chars)`: drop any of the given characters from both ends. -/
def pyStripChars (cs : List Char) (s : PyStr) : PyStr :=
  ((s.dropWhile (cs.contains ·)).reverse.dropWhile (cs.contains ·)).reverse

/-- Python `s.rstrip(chars)`: drop any of the given characters from the right end. -/
def pyRstripChars (cs : List Char) (s : PyStr) : PyStr :=
  (s.reverse.dropWhile (cs.contains ·)).reverse

/-- Python `s.split(sep)` for a one-character separator: always returns at
least one (possibly empty) part; `"".split(sep) == [""]`. -/
def pySplit (sep : Char) : PyStr → List PyStr
  | [] => [[]]
  | c :: cs =>
    if c = sep then [] :: pySplit sep cs
    else
      match pySplit sep cs with
      | [] => [[c]]
      | p :: ps => (c :: p) :: ps

/-- Python `",".join(parts)`. -/
def pyJoin (sep : Char) : List PyStr → PyStr
  | [] => []
  | [p] => p
  | p :: ps => p ++ sep :: pyJoin sep ps

/-- `pySplit` never returns the empty list of parts. -/
theorem pySplit_ne_nil (sep : Char) (s : PyStr) : pySplit sep s ≠ [] := by
  cases s with
  | nil => simp [pySplit]
  | cons c cs =>
    simp only [pySplit]
    split
    · simp
    · split <;> simp_all

/-! ## `FlowControlThread.check_slot_has_wafer` (EFEM_022.py, lines 529-544)

```python
def check_slot_has_wafer(self, map_data, slot_index):
    if not map_data or map_data == "解析錯誤":
        return False
    slots = map_data.split(',')
    if len(slots) == self.max_slots:          # max_slots = 25
        map_index = self.max_slots - slot_index
        if 0 <= map_index < self.max_slots:
            return slots[map_index] in ['1', '2', '3', '4', '5']
        else:
            return False
    else:
        return False
```
-/

/-- The sentinel string `"解析錯誤"` returned by the parse helpers on failure. -/
def parseErrStr : PyStr := "解析錯誤".toList

/-- Wafer-presence codes accepted by `check_slot_has_wafer`. -/
def waferCodes : List PyStr := ["1".toList, "2".toList, "3".toList, "4".toList, "5".toList]

/-- `FlowControlThread.max_slots`. -/
def max_slots : Nat := 25

/-- Shallow embedding of `FlowControlThread.check_slot_has_wafer`. -/
def check_slot_has_wafer (map_data : PyStr) (slot_index : Int) : Bool :=
  if map_data = [] || map_data = parseErrStr then false
  else
    let slots := pySplit ',' map_data
    if slots.length = max_slots then
      let map_index : Int := (max_slots : Int) - slot_index
      if 0 ≤ map_index ∧ map_index < (max_slots : Int) then
        waferCodes.contains (slots.getD map_index.toNat [])
      else false
    else false

/-- C10 theorem body (stated later): for a 25-field map, slot `s` reads field `25 - s`. -/
theorem check_slot_spec (m : PyStr) (s : Int) (h1 : 1 ≤ s) (h2 : s ≤ 25)
    (h25 : (pySplit ',' m).length = 25) :
    check_slot_has_wafer m s = waferCodes.contains ((pySplit ',' m).getD (25 - s).toNat []) := by
  have hm : m ≠ [] := by
    intro h; subst h; simp [pySplit] at h25
  have hperr : m ≠ parseErrStr := by
    intro h; subst h
    have : (pySplit ',' parseErrStr).length = 1 := by decide
    omega
  unfold check_slot_has_wafer
  simp only [hm, hperr, max_slots, h25]
  have hge : (0 : Int) ≤ 25 - s := by omega
  have hlt : (25 : Int) - s < 25 := by omega
  simp [hge, hlt]

theorem check_slot_not25 (m : PyStr) (s : Int) (h : (pySplit ',' m).length ≠ 25) :
    check_slot_has_wafer m s = false := by
  unfold check_slot_has_wafer
  split
  · rfl
  · simp only [max_slots]
    split
    · omega
    · rfl

/-- **C10.** For every map string with exactly 25 comma-separated fields and every
slot number `s` in `1..25`, `check_slot_has_wafer` reports slot `s` as holding a
wafer iff the field at 0-based position `25 - s` is one of `'1'..'5'` (first
field = slot 25, last field = slot 1); if the map string does not have exactly
25 fields, every slot is reported as having no wafer. -/
theorem c10_slot_occupancy (m : PyStr) (s : Int) :
    (1 ≤ s → s ≤ 25 → (pySplit ',' m).length = 25 →
      (check_slot_has_wafer m s = true ↔ (pySplit ',' m).getD (25 - s).toNat [] ∈ waferCodes))
    ∧ ((pySplit ',' m).length ≠ 25 → check_slot_has_wafer m s = false) := by
  constructor
  · intro h1 h2 h25
    rw [check_slot_spec m s h1 h2 h25]
    simp
  · exact check_slot_not25 m s

/-- Witness for C10 at a concrete 25-field map: slot 25 reads the first field. -/
theorem c10_slot_occupancy_witness :
    check_slot_has_wafer "4,0,0,0,0,0,0,0,0,0,0,0,0,0,0,0,0,0,0,0,0,0,0,0,1".toList 25 = true := by
  have h := (c10_slot_occupancy
    "4,0,0,0,0,0,0,0,0,0,0,0,0,0,0,0,0,0,0,0,0,0,0,0,1".toList 25).1
    (by decide) (by decide) (by decide)
  exact h.mpr (by decide)

/-! ## Transport framing, buffered path (EFEM_015.py, `receive_data`, lines 123-156)

```python
buffer += data_chunk.decode('utf-8')
while '$' in buffer:
    message, buffer = buffer.split('$', 1)
    message += '$'
    message_queue.put(("message", message))
```
The loop repeatedly peels the prefix up to and including the first `'$'` off
the front of the buffer; the remainder after the last `'$'` is retained for
the next read.  `framesOf` computes exactly the frames emitted by that loop
together with the final buffer content. -/

/-- Prepend one character to an already-parsed tail: a `'$'` starts a new
(one-character, terminator-only) frame; any other character extends the first
frame when one exists and otherwise lands in the leftover buffer. -/
def consFrame (c : Char) (r : List PyStr × PyStr) : List PyStr × PyStr :=
  if c = '$' then ([c] :: r.1, r.2)
  else
    match r.1 with
    | [] => ([], c :: r.2)
    | f :: fs => ((c :: f) :: fs, r.2)

/-- Frames (each including its terminating `'$'`) and leftover of a byte run. -/
def framesOf : PyStr → List PyStr × PyStr
  | [] => ([], [])
  | c :: cs => consFrame c (framesOf cs)

/-- One call of the `receive_data` loop body: append the chunk to the buffer,
emit every complete frame, retain the remainder. -/
def receiveChunk (buffer chunk : PyStr) : List PyStr × PyStr :=
  framesOf (buffer ++ chunk)

/-- The whole receive activity of EFEM_015 over a sequence of TCP chunks,
starting from a given buffer: emits the concatenated frame lists in order and
returns the final buffer. -/
def receiveAll (buffer : PyStr) : List PyStr → List PyStr × PyStr
  | [] => ([], buffer)
  | ch :: chs =>
    let r := receiveChunk buffer ch
    let rest := receiveAll r.2 chs
    (r.1 ++ rest.1, rest.2)

theorem framesOf_no_dollar {s : PyStr} (h : '$' ∉ s) : framesOf s = ([], s) := by
  induction s with
  | nil => rfl
  | cons c cs ih =>
    have hc : c ≠ '$' := fun hc => h (hc ▸ List.mem_cons_self c cs)
    have hcs : '$' ∉ cs := fun hm => h (List.mem_cons_of_mem c hm)
    simp [framesOf, consFrame, hc, ih hcs]

theorem framesOf_snd_no_dollar (s : PyStr) : '$' ∉ (framesOf s).2 := by
  induction s with
  | nil => simp [framesOf]
  | cons c cs ih =>
    by_cases hc : c = '$'
    · simpa [framesOf, consFrame, hc] using ih
    · cases hr : (framesOf cs).1 with
      | nil =>
        simp only [framesOf, consFrame, if_neg hc, hr]
        intro hm
        rcases List.mem_cons.mp hm with h | h
        · exact hc h.symm
        · exact ih h
      | cons f fs => simpa [framesOf, consFrame, hc, hr] using ih

/-- Parsing a concatenation: the frames of `x` come first, then the frames of
`x`'s leftover glued to `y`. -/
theorem framesOf_append (x y : PyStr) :
    framesOf (x ++ y) =
      ((framesOf x).1 ++ (framesOf ((framesOf x).2 ++ y)).1,
        (framesOf ((framesOf x).2 ++ y)).2) := by
  induction x with
  | nil => simp [framesOf]
  | cons c cs ih =>
    have hl : framesOf ((c :: cs) ++ y) = consFrame c (framesOf (cs ++ y)) := rfl
    rw [hl, ih]
    by_cases hc : c = '$'
    · simp [framesOf, consFrame, hc]
    · cases h0 : (framesOf cs).1 with
      | nil =>
        -- no complete frame in `cs`: the head char is pushed into the leftover
        have hr : framesOf ((framesOf (c :: cs)).2 ++ y)
            = consFrame c (framesOf ((framesOf cs).2 ++ y)) := by
          simp [framesOf, consFrame, hc, h0]
        simp only [h0, List.nil_append, framesOf, consFrame, hc, if_neg hc, hr]
        simp [framesOf, consFrame, hc, h0]
      | cons f fs =>
        simp [framesOf, consFrame, hc, h0]

/-- Generalised chunking-independence: starting from a dollar-free buffer, the
emitted frames and final buffer depend only on the concatenation. -/
theorem receiveAll_eq_framesOf (chunks : List PyStr) (buffer : PyStr)
    (hb : '$' ∉ buffer) :
    receiveAll buffer chunks = framesOf (buffer ++ chunks.flatten) := by
  induction chunks generalizing buffer with
  | nil => simp [receiveAll, framesOf_no_dollar hb]
  | cons ch chs ih =>
    have hres := framesOf_snd_no_dollar (buffer ++ ch)
    calc receiveAll buffer (ch :: chs)
        = ((framesOf (buffer ++ ch)).1 ++ (receiveAll (framesOf (buffer ++ ch)).2 chs).1,
            (receiveAll (framesOf (buffer ++ ch)).2 chs).2) := rfl
      _ = ((framesOf (buffer ++ ch)).1 ++
            (framesOf ((framesOf (buffer ++ ch)).2 ++ chs.flatten)).1,
            (framesOf ((framesOf (buffer ++ ch)).2 ++ chs.flatten)).2) := by
            rw [ih _ hres]
      _ = framesOf ((buffer ++ ch) ++ chs.flatten) := (framesOf_append _ _).symm
      _ = framesOf (buffer ++ (ch :: chs).flatten) := by simp [List.flatten]

/-! ## Transport framing, per-chunk path (EFEM_022.py, `EFemClientThread.run`, lines 183-203)

```python
raw_data = data_bytes.decode('utf-8', errors='replace')
parts = raw_data.split('$')
for part in parts:
    if part.strip():
        message = part.strip() + "$"
        if message.startswith('#'):
            message = message[1:]
        self.received_data_signal.emit(message)
```
No buffer is carried from one `recv` to the next: each chunk is split on `'$'`
in isolation. -/

/-- Frames emitted by `EFemClientThread.run` for one received chunk. -/
def processChunk022 (chunk : PyStr) : List PyStr :=
  (pySplit '$' chunk).filterMap fun part =>
    let s := pyStrip part
    if s = [] then none
    else
      let message := s ++ ['$']
      some (if message.headD ' ' = '#' then message.tail else message)

/-- Frames emitted by `EFemClientThread.run` over a sequence of chunks. -/
def receiveAll022 (chunks : List PyStr) : List PyStr :=
  (chunks.map processChunk022).flatten

/-- **C1 (counterexample).** The claim is false for the EFEM_022 receive path
(`EFemClientThread.run`): it retains no remainder between reads, so splitting
the single-frame stream `"AB$"` into the chunks `"A"` and `"B$"` makes it emit
the two frames `"A$"` and `"B$"` instead of the one frame `"AB$"`. -/
theorem c1_chunking_counterexample :
    receiveAll022 ["A".toList, "B$".toList] ≠ receiveAll022 ["AB$".toList] ∧
    receiveAll022 ["A".toList, "B$".toList] = ["A$".toList, "B$".toList] ∧
    receiveAll022 ["AB$".toList] = ["AB$".toList] := by
  refine ⟨by decide, by decide, by decide⟩

/-- **C1 (amended).** The buffered receive path of EFEM_015 (`receive_data`) is
chunking-independent: for every way of splitting a byte stream into TCP-sized
chunks it emits exactly the frames of the concatenated stream, in order, with
the remainder after the last `'$'` retained in the buffer; the EFEM_022 receive
path (`EFemClientThread.run`) splits each chunk in isolation and does not have
this property (see the counterexample). -/
theorem c1_chunking_independence (chunks : List PyStr) :
    receiveAll [] chunks = framesOf chunks.flatten := by
  simpa using receiveAll_eq_framesOf chunks [] (by simp)

/-! ## Response correlation (EFEM_015.py, `process_received_message`, lines 158-207)

```python
content = message.strip('#@$')
parts = content.split(',')
is_response = False
cmd_event = parts[0]
details = parts[1:]
if waiting_for_response and last_sent_command_base and cmd_event == last_sent_command_base:
    if "Error" in details:
        error_code = details[-1] if details else ""
        command_result = "Error"; command_result_event.set()
        waiting_for_response = False; last_sent_command_base = None; is_response = True
    elif "OK" in details:
        result_data = ",".join(d for d in details if d != "OK")
        command_result = "OK"; command_result_event.set()
        waiting_for_response = False; last_sent_command_base = None; is_response = True
if not is_response:
    if cmd_event == "Event":
        source = details[0] if len(details) > 0 else "未知"
        event_type = details[1] if len(details) > 1 else "未知"
        data = ",".join(details[2:]) if len(details) > 2 else ""
```
The mutable module state of EFEM_015 relevant to correlation is the quadruple
`(waiting_for_response, last_sent_command_base, command_result,
command_result_event)`, embedded as `EngineSt`. -/

/-- Value stored in `command_result`. -/
inductive RunRes
  | ok
  | err
  | timeout
deriving DecidableEq

/-- How one incoming frame was classified. -/
inductive MsgClass
  | respError (code : PyStr)
  | respOk (payload : PyStr)
  | event (source eventType data : PyStr)
  | dropped
deriving DecidableEq

/-- The EFEM_015 correlation state: `waiting_for_response`,
`last_sent_command_base`, `command_result`, `command_result_event`. -/
structure EngineSt where
  waiting : Bool
  base : Option PyStr
  result : Option RunRes
  eventSet : Bool
deriving DecidableEq

def errTok : PyStr := "Error".toList
def okTok : PyStr := "OK".toList
def eventTok : PyStr := "Event".toList
def unknownTok : PyStr := "未知".toList

/-- Python truthiness of `last_sent_command_base` (`None` and `""` are falsy). -/
def baseTruthy : Option PyStr → Bool
  | none => false
  | some b => !b.isEmpty

/-- The non-response handling tail of `process_received_message`
(`if not is_response: if cmd_event == "Event": ...`). -/
def classifyPlain (cmd_event : PyStr) (details : List PyStr) : MsgClass :=
  if cmd_event = eventTok then
    .event (details.getD 0 unknownTok) (details.getD 1 unknownTok)
      (if details.length > 2 then pyJoin ',' (details.drop 2) else [])
  else .dropped

/-- Shallow embedding of `process_received_message`: new state and
classification of the frame. -/
def process_received_message (s : EngineSt) (message : PyStr) : EngineSt × MsgClass :=
  let content := pyStripChars ['#', '@', '$'] message
  let parts := pySplit ',' content
  let cmd_event := parts.headD []
  let details := parts.tail
  if s.waiting && baseTruthy s.base && (some cmd_event == s.base) then
    if details.contains errTok then
      (⟨false, none, some .err, true⟩, .respError (details.getLastD []))
    else if details.contains okTok then
      (⟨false, none, some .ok, true⟩, .respOk (pyJoin ',' (details.filter (· ≠ okTok))))
    else
      (s, classifyPlain cmd_event details)
  else
    (s, classifyPlain cmd_event details)

/-- First comma-separated field of a frame after prefix/terminator stripping. -/
def firstField (message : PyStr) : PyStr :=
  (pySplit ',' (pyStripChars ['#', '@', '$'] message)).headD []

def isResponseClass : MsgClass → Bool
  | .respError _ => true
  | .respOk _ => true
  | _ => false

def isEventClass : MsgClass → Bool
  | .event _ _ _ => true
  | _ => false

theorem classifyPlain_not_response (c : PyStr) (d : List PyStr) :
    isResponseClass (classifyPlain c d) = false := by
  unfold classifyPlain
  split <;> rfl

/-- When the match condition is false, `process_received_message` falls through
to the plain (event/dropped) handling and leaves the state untouched. -/
theorem process_else (s : EngineSt) (m : PyStr)
    (hc : (s.waiting && baseTruthy s.base && (some (firstField m) == s.base)) = false) :
    process_received_message s m =
      (s, classifyPlain (firstField m) ((pySplit ',' (pyStripChars ['#', '@', '$'] m)).tail)) := by
  simp only [firstField] at hc
  simp only [process_received_message, hc]
  simp [firstField]

/-- A delivered frame either resolves the wait (clearing it) or leaves the
state untouched. -/
theorem process_state_cases (s : EngineSt) (m : PyStr) :
    (process_received_message s m).1 = s ∨ (process_received_message s m).1.waiting = false := by
  simp only [process_received_message]
  split
  · split
    · right; rfl
    · split
      · right; rfl
      · left; rfl
  · left; rfl

/-- A frame delivered while no wait is active never touches the state and is
never classified as a response. -/
theorem process_not_waiting (s : EngineSt) (m : PyStr) (h : s.waiting = false) :
    (process_received_message s m).1 = s ∧
      isResponseClass (process_received_message s m).2 = false := by
  rw [process_else s m (by simp [h])]
  exact ⟨rfl, classifyPlain_not_response _ _⟩

/-- A frame whose first field differs from the outstanding command name never
touches the state and is never classified as a response. -/
theorem process_no_match (s : EngineSt) (m : PyStr) (b : PyStr)
    (hb : s.base = some b) (hne : firstField m ≠ b) :
    (process_received_message s m).1 = s ∧
      isResponseClass (process_received_message s m).2 = false := by
  rw [process_else s m (by rw [hb]; simp [hne])]
  exact ⟨rfl, classifyPlain_not_response _ _⟩

/-- **C4 (counterexample).** The claim fails when the outstanding
PendingRequest is itself named `Event`: with `last_sent_command_base = "Event"`
and `waiting_for_response` set, the frame `Event,Loadport1,OK$` (first field
literally `Event`) is consumed as an OK response — the wait is resolved and no
Event is produced. -/
theorem c4_event_counterexample :
    isResponseClass
        (process_received_message ⟨true, some "Event".toList, none, false⟩
          "Event,Loadport1,OK$".toList).2 = true ∧
    isEventClass
        (process_received_message ⟨true, some "Event".toList, none, false⟩
          "Event,Loadport1,OK$".toList).2 = false ∧
    (process_received_message ⟨true, some "Event".toList, none, false⟩
          "Event,Loadport1,OK$".toList).1.waiting = false := by
  refine ⟨by decide, by decide, by decide⟩

/-- **C4 (amended).** A received frame whose first comma-separated field is
literally `Event` is classified as an Event and never consumed as a response
— regardless of any outstanding PendingRequest whose command name is not
itself literally `Event` (a PendingRequest named `Event` can steal such a
frame when its details contain `OK` or `Error`, see the counterexample). -/
theorem c4_event_classification (s : EngineSt) (m : PyStr)
    (hf : firstField m = eventTok) (hb : s.base ≠ some eventTok) :
    (process_received_message s m).1 = s ∧
      isEventClass (process_received_message s m).2 = true ∧
      isResponseClass (process_received_message s m).2 = false := by
  have hc : (s.waiting && baseTruthy s.base && (some (firstField m) == s.base)) = false := by
    rcases hbase : s.base with _ | b
    · simp [baseTruthy]
    · have : firstField m ≠ b := by
        intro h
        exact hb (by rw [hbase, ← h, hf])
      simp [this]
  rw [process_else s m hc]
  refine ⟨rfl, ?_, classifyPlain_not_response _ _⟩
  simp only [classifyPlain, hf, if_pos rfl]
  rfl

/-- Witness for C4: a `FoupPlace` event arriving while a `Load` command is
outstanding is classified as an Event and the wait is untouched. -/
theorem c4_event_classification_witness :
    (process_received_message ⟨true, some "Load".toList, none, false⟩
        "Event,Loadport1,FoupPlace$".toList).1 = ⟨true, some "Load".toList, none, false⟩ ∧
      isEventClass (process_received_message ⟨true, some "Load".toList, none, false⟩
        "Event,Loadport1,FoupPlace$".toList).2 = true ∧
      isResponseClass (process_received_message ⟨true, some "Load".toList, none, false⟩
        "Event,Loadport1,FoupPlace$".toList).2 = false :=
  c4_event_classification ⟨true, some "Load".toList, none, false⟩
    "Event,Loadport1,FoupPlace$".toList (by decide) (by decide)

/-! ## Await / timeout (EFEM_015.py, `_execute_sequence_thread`, lines 595-619)

```python
event_set = command_result_event.wait(timeout=timeout_seconds)
waiting_for_response = False
last_sent_command_base = None
...
if event_set:
    ... use command_result ...
else:
    command_result = "Timeout"
```
`awaitResponse` runs the wait window: frames arriving before the deadline are
processed by `process_received_message`, then the pending request is cleared
(with `command_result = "Timeout"` when the event was never set), and frames
arriving after the deadline are processed from the cleared state. -/

/-- Deliver a list of frames to `process_received_message` in order. -/
def deliverAll (s : EngineSt) (msgs : List PyStr) : EngineSt :=
  msgs.foldl (fun s m => (process_received_message s m).1) s

/-- The end of the wait (lines 598-618): clear the pending request; if the
result event was never set, record `Timeout` and return it. -/
def awaitOutcome (s1 : EngineSt) : EngineSt × Option RunRes :=
  if s1.eventSet then (⟨false, none, s1.result, s1.eventSet⟩, s1.result)
  else (⟨false, none, some .timeout, s1.eventSet⟩, some .timeout)

/-- One full `Await`: frames `during` arrive before the deadline, frames
`after` arrive once the deadline has passed. Returns the result seen by the
sequence thread and the final correlation state. -/
def awaitResponse (s0 : EngineSt) (during after : List PyStr) : Option RunRes × EngineSt :=
  let s1 := deliverAll s0 during
  let r := awaitOutcome s1
  (r.2, deliverAll r.1 after)

theorem deliverAll_no_match (b : PyStr) (msgs : List PyStr) (s : EngineSt)
    (hb : s.base = some b) (h : ∀ m ∈ msgs, firstField m ≠ b) :
    deliverAll s msgs = s := by
  induction msgs with
  | nil => rfl
  | cons m ms ih =>
    have h1 := (process_no_match s m b hb (h m (List.mem_cons_self m ms))).1
    calc deliverAll s (m :: ms)
        = deliverAll (process_received_message s m).1 ms := rfl
      _ = deliverAll s ms := by rw [h1]
      _ = s := ih fun x hx => h x (List.mem_cons_of_mem m hx)

theorem deliverAll_not_waiting (msgs : List PyStr) (s : EngineSt)
    (h : s.waiting = false) : deliverAll s msgs = s := by
  induction msgs with
  | nil => rfl
  | cons m ms ih =>
    have h1 := (process_not_waiting s m h).1
    calc deliverAll s (m :: ms)
        = deliverAll (process_received_message s m).1 ms := rfl
      _ = deliverAll s ms := by rw [h1]
      _ = s := ih

/-! ## Await / timeout (EFEM_022.py, `_wait_for_efem_response`, lines 298-307)

```python
start_time = time.monotonic()
while time.monotonic() - start_time < timeout:
    if not self.is_running: return "STOP_REQUESTED"
    try:
        return self.efem_response_queue.get(timeout=0.1)
    except queue.Empty:
        continue
return None  # timeout
```
Time is discretised into the loop's 0.1 s poll ticks; `fuel` is the number of
poll iterations remaining before the deadline; `deliver t` is the frame handed
over by `set_efem_response` during tick `t` (which drains the queue first). -/

def wait_for_efem_response (running : Nat → Bool) (deliver : Nat → Option PyStr) :
    Nat → Nat → List PyStr → Option PyStr × List PyStr
  | _, 0, q => (none, q)
  | t, fuel + 1, q =>
    if running t = false then (some "STOP_REQUESTED".toList, q)
    else
      match deliver t with
      | some d => (some d, [])
      | none =>
        match q with
        | d :: rest => (some d, rest)
        | [] => wait_for_efem_response running deliver (t + 1) fuel []

theorem wait022_timeout (running : Nat → Bool) (deliver : Nat → Option PyStr)
    (fuel t0 : Nat) (hr : ∀ t, running t = true) (hd : ∀ t, deliver t = none) :
    (wait_for_efem_response running deliver t0 fuel []).1 = none := by
  induction fuel generalizing t0 with
  | zero => rfl
  | succ n ih =>
    simp only [wait_for_efem_response, hr t0, hd t0]
    exact ih (t0 + 1)

/-- **C3.** `Await(name, timeout)` returns `Timeout` when no frame whose first
field matches `name` arrives within the timeout window, and a matching frame
arriving only after the deadline (once the pending request has been cleared)
leaves the state — in particular the recorded `Timeout` result — unchanged and
is never classified as a response (it is handled as an unmatched frame); the
EFEM_022 poll loop `_wait_for_efem_response` likewise returns `None` (timeout)
when nothing is delivered before its deadline. -/
theorem c3_await_timeout (name : PyStr) (s0 : EngineSt) (during after : List PyStr)
    (_hw : s0.waiting = true) (hb : s0.base = some name) (he : s0.eventSet = false)
    (hnomatch : ∀ m ∈ during, firstField m ≠ name) :
    (awaitResponse s0 during after).1 = some RunRes.timeout ∧
      (awaitResponse s0 during after).2.result = some RunRes.timeout ∧
      (awaitResponse s0 during after).2.waiting = false ∧
      (∀ m, (process_received_message (awaitResponse s0 during after).2 m).1 =
          (awaitResponse s0 during after).2 ∧
        isResponseClass (process_received_message (awaitResponse s0 during after).2 m).2 = false) ∧
      (∀ (running : Nat → Bool) (deliver : Nat → Option PyStr) (fuel t0 : Nat),
        (∀ t, running t = true) → (∀ t, deliver t = none) →
          (wait_for_efem_response running deliver t0 fuel []).1 = none) := by
  have h1 : deliverAll s0 during = s0 := deliverAll_no_match name during s0 hb hnomatch
  have hA : awaitResponse s0 during after =
      (some RunRes.timeout, ⟨false, none, some RunRes.timeout, false⟩) := by
    simp only [awaitResponse, h1, awaitOutcome, he, Bool.false_eq_true, if_false]
    rw [deliverAll_not_waiting after _ rfl]
  refine ⟨by rw [hA], by rw [hA], by rw [hA], ?_, ?_⟩
  · intro m
    rw [hA]
    exact process_not_waiting _ m rfl
  · intro running deliver fuel t0 hr hd
    exact wait022_timeout running deliver fuel t0 hr hd

/-- Witness for C3: with a `Load` request outstanding, an unrelated OK frame
before the deadline still yields `Timeout`, and a `Load` OK frame arriving
after the deadline changes nothing. -/
theorem c3_await_timeout_witness :
    (awaitResponse ⟨true, some "Load".toList, none, false⟩
        ["GetStatus,EFEM,OK$".toList] ["Load,Loadport1,OK$".toList]).1 = some RunRes.timeout ∧
      (awaitResponse ⟨true, some "Load".toList, none, false⟩
        ["GetStatus,EFEM,OK$".toList] ["Load,Loadport1,OK$".toList]).2.result =
          some RunRes.timeout :=
  have h := c3_await_timeout "Load".toList ⟨true, some "Load".toList, none, false⟩
    ["GetStatus,EFEM,OK$".toList] ["Load,Loadport1,OK$".toList]
    (by decide) (by decide) (by decide)
    (by intro m hm; rw [List.mem_singleton] at hm; subst hm; decide)
  ⟨h.1, h.2.1⟩

/-! ## Single outstanding request (EFEM_015.py lines 583-600; EFEM_022.py lines 282-288)

EFEM_015 stores the pending request in the module globals
`(waiting_for_response, last_sent_command_base)`; the sequence thread registers
a request (lines 584-589) only after the previous wait has reset
`waiting_for_response` to `False` (lines 599-600, 629-630, and the reset in
`connect_efem`/`disconnect_efem`), and the GUI's run button is disabled while a
run is active, so at most one sequence thread exists.  `Step` is the resulting
transition relation on the correlation state.

EFEM_022 hands responses over through `efem_response_queue = queue.Queue(maxsize=1)`:

```python
def set_efem_response(self, data):
    try:
        while not self.efem_response_queue.empty(): self.efem_response_queue.get_nowait()
        self.efem_response_queue.put(data, block=False)
    except queue.Full:
        self.log_signal.emit("警告: EFEM 回應佇列已滿，可能遺失回應", "orange")
```
`put(block=False)` on a full bounded queue raises `queue.Full` and leaves the
queue unchanged — a second entry is rejected, never stored. -/

/-- `queue.Queue(maxsize=cap).put_nowait`: `none` models the `queue.Full`
rejection (the queue is left unchanged). -/
def queue_put_nowait (cap : Nat) (q : List PyStr) (x : PyStr) : Option (List PyStr) :=
  if q.length < cap then some (q ++ [x]) else none

/-- `FlowControlThread.set_efem_response`: drain the capacity-1 queue, then
`put_nowait` the new response. -/
def set_efem_response (_q : List PyStr) (x : PyStr) : List PyStr :=
  match queue_put_nowait 1 [] x with
  | some q1 => q1
  | none => []

/-- State after `connect_efem` (EFEM_015 lines 54-58). -/
def initSt : EngineSt := ⟨false, none, none, false⟩

/-- Atomic transitions of the EFEM_015 correlation state. -/
inductive Step : EngineSt → EngineSt → Prop
  /-- Lines 584-589: the sequence thread registers a request before sending.
  The thread only reaches this point with no wait active. -/
  | register (s : EngineSt) (cmd : PyStr) (h : s.waiting = false) :
      Step s ⟨true, some ((pySplit ',' cmd).headD []), none, false⟩
  /-- The main thread processes one received frame. -/
  | deliver (s : EngineSt) (m : PyStr) : Step s (process_received_message s m).1
  /-- Lines 598-618: the wait ends (response seen or timeout) and the pending
  request is cleared. -/
  | awaitEnd (s : EngineSt) :
      Step s ⟨false, none, if s.eventSet then s.result else some RunRes.timeout, s.eventSet⟩
  /-- `disconnect_efem` (lines 84-85, 100-102): release the waiter and reset. -/
  | disconnect (s : EngineSt) : Step s ⟨false, none, none, true⟩

/-- States reachable from the freshly connected state. -/
inductive Reach : EngineSt → Prop
  | refl : Reach initSt
  | tail {s t : EngineSt} : Reach s → Step s t → Reach t

/-- Number of outstanding PendingRequests represented by a state. -/
def pendingRequests (s : EngineSt) : Nat := if s.waiting then 1 else 0

theorem reach_base_some {s : EngineSt} (h : Reach s) :
    s.waiting = true → s.base ≠ none := by
  induction h with
  | refl => intro h; simp [initSt] at h
  | tail _ hstep ih =>
    cases hstep with
    | register cmd h => intro _; simp
    | deliver m =>
      rcases process_state_cases _ m with heq | hw
      · rw [heq]; exact ih
      · rw [hw]; intro h; cases h
    | awaitEnd => intro h; cases h
    | disconnect => intro h; cases h

/-- **C2.** In every reachable state at most one PendingRequest exists
(`pendingRequests ≤ 1`), an outstanding request always carries its command
name, and while a request is outstanding no transition installs a different
one — the only enabled steps either resolve/clear the wait or leave the state
untouched (registration is only enabled with no request outstanding).  On the
EFEM_022 side, `set_efem_response` keeps the response queue at capacity one,
and `put_nowait` on an occupied capacity-1 queue is rejected (`queue.Full`)
rather than storing a second entry. -/
theorem c2_single_pending (s : EngineSt) (hreach : Reach s) :
    pendingRequests s ≤ 1 ∧
      (s.waiting = true → s.base ≠ none) ∧
      (∀ t, Step s t → s.waiting = true → t.waiting = true → t = s) ∧
      (∀ (q : List PyStr) (x : PyStr),
        (set_efem_response q x).length ≤ 1 ∧ (q ≠ [] → queue_put_nowait 1 q x = none)) := by
  refine ⟨?_, reach_base_some hreach, ?_, ?_⟩
  · unfold pendingRequests; split <;> simp
  · intro t hstep hs ht
    cases hstep with
    | register cmd h => rw [hs] at h; cases h
    | deliver m =>
      rcases process_state_cases s m with heq | hw
      · exact heq
      · rw [hw] at ht; cases ht
    | awaitEnd => cases ht
    | disconnect => cases ht
  · intro q x
    constructor
    · rfl
    · intro hq
      unfold queue_put_nowait
      have : ¬ q.length < 1 := by
        cases q with
        | nil => exact absurd rfl hq
        | cons a l => simp
      simp [this]

/-- Witness for C2 at the freshly connected state. -/
theorem c2_single_pending_witness :
    pendingRequests initSt ≤ 1 ∧
      (initSt.waiting = true → initSt.base ≠ none) ∧
      (∀ t, Step initSt t → initSt.waiting = true → t.waiting = true → t = initSt) ∧
      (∀ (q : List PyStr) (x : PyStr),
        (set_efem_response q x).length ≤ 1 ∧ (q ≠ [] → queue_put_nowait 1 q x = none)) :=
  c2_single_pending initSt Reach.refl

/-! ## EFEM_022 flow control (`FlowControlThread`, lines 257-544, and the
router `EFemApp.handle_received_data`, lines 1398-1421)

`_send_cmd_and_wait` classifies the string pulled from the response queue:

```python
response = self._wait_for_efem_response()
if response == "STOP_REQUESTED": return None, "Stopped"
if response is None:             return None, "Timeout"
if ",OK" in response:            return response, "OK"
elif ",Error," in response:      return None, "EFEM Error"
else:                            return None, "Not OK"
```

`run` wraps every step in `if status != "OK": raise RuntimeError(...)`, checks
`if not self.is_running: raise StopIteration(...)` at the head of the wafer
loop, and maps the exceptions to the terminal status codes
(`except StopIteration: final_status_code = -2`,
`except RuntimeError: final_status_code = -1`, success end: `99`).

A run is driven by three external streams: the successive values observed when
reading `is_running`, the successive results of `_wait_for_efem_response`, and
the successive user confirmations; exhausted streams default to "flag still
true" / "nothing delivered". -/

/-- Python `sub in s` for strings: `sub` occurs as a contiguous substring. -/
def containsSub (needle : PyStr) : PyStr → Bool
  | [] => needle.isEmpty
  | c :: rest => needle.isPrefixOf (c :: rest) || containsSub needle rest

/-- Status component returned by `_send_cmd_and_wait`
(`"OK" | "Stopped" | "Timeout" | "EFEM Error" | "Not OK"`). -/
inductive FlowStatus
  | ok
  | stopped
  | timeout
  | efemError
  | notOK
deriving DecidableEq

/-- Value taken from `user_confirmation_queue` (or its absence). -/
inductive ConfVal
  | stopRequested
  | noAnswer
  | answer (b : Bool)
deriving DecidableEq

/-- Status component returned by `_request_user_confirm`. -/
inductive ConfStatus
  | confirmed
  | rejected
  | stopped
  | timeout
deriving DecidableEq

/-- External script for one flow run: successive reads of `is_running`,
successive `_wait_for_efem_response` results (`none` = timeout, the string
`"STOP_REQUESTED"` = stop sentinel), successive user confirmations. -/
structure Env where
  runs : List Bool
  waits : List (Option PyStr)
  confs : List ConfVal
deriving DecidableEq

def readRun (e : Env) : Bool × Env := (e.runs.headD true, { e with runs := e.runs.tail })

def takeWait (e : Env) : Option PyStr × Env :=
  (e.waits.headD none, { e with waits := e.waits.tail })

def takeConf (e : Env) : ConfVal × Env :=
  (e.confs.headD .noAnswer, { e with confs := e.confs.tail })

/-- The response classification tail of `_send_cmd_and_wait`. -/
def sendCmdAndWaitStatus (response : Option PyStr) : Option PyStr × FlowStatus :=
  if response = some "STOP_REQUESTED".toList then (none, .stopped)
  else
    match response with
    | none => (none, .timeout)
    | some r =>
      if containsSub ",OK".toList r then (some r, .ok)
      else if containsSub ",Error,".toList r then (none, .efemError)
      else (none, .notOK)

/-- `FlowControlThread._send_cmd_and_wait` (lines 320-353): check the stop
flag, then wait for and classify one response. -/
def send_cmd_and_wait (e : Env) : (Option PyStr × FlowStatus) × Env :=
  let r := readRun e
  if r.1 = false then ((none, .stopped), r.2)
  else
    let w := takeWait r.2
    (sendCmdAndWaitStatus w.1, w.2)

/-- `FlowControlThread._request_user_confirm` (lines 355-383). -/
def request_user_confirm (e : Env) : (Bool × ConfStatus) × Env :=
  let r := readRun e
  if r.1 = false then ((false, .stopped), r.2)
  else
    let c := takeConf r.2
    match c.1 with
    | .stopRequested => ((false, .stopped), c.2)
    | .noAnswer => ((false, .timeout), c.2)
    | .answer true => ((true, .confirmed), c.2)
    | .answer false => ((false, .rejected), c.2)

/-- `FlowControlThread.parse_rfid` (lines 508-513). -/
def parse_rfid (response : PyStr) : PyStr :=
  let parts := pySplit ',' (pyRstripChars ['$'] (pyStrip response))
  if parts.length = 4 ∧ parts.getD 2 [] = okTok then parts.getD 3 []
  else parseErrStr

/-- `FlowControlThread.parse_map_result` (lines 515-520). -/
def parse_map_result (response : PyStr) : PyStr :=
  let parts := pySplit ',' (pyRstripChars ['$'] (pyStrip response))
  if parts.length ≥ 4 ∧ parts.getD 2 [] = okTok then pyJoin ',' (parts.drop 3)
  else parseErrStr

/-- Exceptions raised inside `FlowControlThread.run`. -/
inductive FlowExc
  | runtimeError
  | stopIteration
deriving DecidableEq

/-- The `except` handlers of `run`: `StopIteration → -2` (user abort),
`RuntimeError → -1` (error abort). -/
def finalStatusFromExc : FlowExc → Int
  | .stopIteration => -2
  | .runtimeError => -1

/-- The wafer-transfer loop of `FlowControlThread.run` (lines 421-468): for
each slot `current_slot ≤ 25`, check the stop flag (`raise StopIteration`),
skip empty slots, and run the six per-slot steps (15, 17, 19, 21+23, 25, 27),
each aborting with `RuntimeError` on a non-OK status. `fuel` is the number of
remaining loop iterations (`25 - current_slot + 1`). -/
def waferLoop (mapData : PyStr) : Int → Nat → Env → Except FlowExc Unit × Env
  | _, 0, e => (.ok (), e)
  | slot, fuel + 1, e =>
    let r := readRun e
    if r.1 = false then (.error .stopIteration, r.2)
    else if check_slot_has_wafer mapData slot = false then
      waferLoop mapData (slot + 1) fuel r.2
    else
      let s15 := send_cmd_and_wait r.2
      if s15.1.2 ≠ .ok then (.error .runtimeError, s15.2)
      else
        let s17 := send_cmd_and_wait s15.2
        if s17.1.2 ≠ .ok then (.error .runtimeError, s17.2)
        else
          let s19 := send_cmd_and_wait s17.2
          if s19.1.2 ≠ .ok then (.error .runtimeError, s19.2)
          else
            let s21 := send_cmd_and_wait s19.2
            if s21.1.2 = .ok then
              let c23 := request_user_confirm s21.2
              if c23.1.1 = false then (.error .runtimeError, c23.2)
              else
                let s25 := send_cmd_and_wait c23.2
                if s25.1.2 ≠ .ok then (.error .runtimeError, s25.2)
                else
                  let s27 := send_cmd_and_wait s25.2
                  if s27.1.2 ≠ .ok then (.error .runtimeError, s27.2)
                  else waferLoop mapData (slot + 1) fuel s27.2
            else (.error .runtimeError, s21.2)

/-- `FlowControlThread.run` (lines 385-495): steps 5 (ReadFoupID), 7 (RFID
confirm), 9 (Load), 11 (GetMapResult), 13 (map confirm), the wafer loop, and
33 (Unload); returns the terminal status code (99 completed, -1 error abort,
-2 user abort). -/
def runNormalFlow (e : Env) : Int :=
  let s5 := send_cmd_and_wait e
  if s5.1.2 = .ok then
    let _rfid := parse_rfid (s5.1.1.getD [])
    let c7 := request_user_confirm s5.2
    if c7.1.1 = false then -1
    else
      let s9 := send_cmd_and_wait c7.2
      if s9.1.2 ≠ .ok then -1
      else
        let s11 := send_cmd_and_wait s9.2
        if s11.1.2 = .ok then
          let mapData := parse_map_result (s11.1.1.getD [])
          let c13 := request_user_confirm s11.2
          if c13.1.1 = false then -1
          else
            match waferLoop mapData 1 25 c13.2 with
            | (.error exc, _) => finalStatusFromExc exc
            | (.ok _, e6) =>
              let s33 := send_cmd_and_wait e6
              if s33.1.2 ≠ .ok then -1 else 99
        else -1
  else -1

/-- `EFemApp.handle_received_data` (lines 1398-1421): route one received
message to the event handler, the active flow thread, or the log. -/
inductive Route
  | toEvent (message : PyStr)
  | toFlow (response : PyStr)
  | ignoredRaw
  | unidentified
deriving DecidableEq

def handle_received_data (data : PyStr) : Route :=
  let message := pyRstripChars ['$'] (pyStrip data)
  if "Event,".toList.isPrefixOf message then .toEvent message
  else if containsSub ",OK".toList message then .toFlow (message ++ ['$'])
  else if containsSub ",Error,".toList message then .toFlow (message ++ ['$'])
  else if "RAW_DATA:".toList.isPrefixOf message then .ignoredRaw
  else .unidentified

/-- The detail fields of a frame (everything after the first field, once the
`#`/`@`/`$` decorations are stripped), as computed by
`process_received_message`. -/
def frameDetails (message : PyStr) : List PyStr :=
  (pySplit ',' (pyStripChars ['#', '@', '$'] message)).tail

/-- A frame whose details contain neither the token `OK` nor the token `Error`
never mutates the EFEM_015 correlation state — matched or not, the pending
request stays outstanding. -/
theorem process_neither_token (s : EngineSt) (m : PyStr)
    (hok : okTok ∉ frameDetails m) (herr : errTok ∉ frameDetails m) :
    (process_received_message s m).1 = s := by
  have hok1 : ((pySplit ',' (pyStripChars ['#', '@', '$'] m)).tail.contains okTok) = false := by
    simp only [frameDetails] at hok
    simpa using hok
  have herr1 : ((pySplit ',' (pyStripChars ['#', '@', '$'] m)).tail.contains errTok) = false := by
    simp only [frameDetails] at herr
    simpa using herr
  simp only [process_received_message]
  split
  · simp only [hok1, herr1, Bool.false_eq_true, if_false]
  · rfl

/-- `handle_received_data` only ever hands a message to the flow thread's
response queue when the message contains the substring `",OK"` or `",Error,"`. -/
theorem route_toFlow_has_token (data : PyStr) (r : PyStr)
    (h : handle_received_data data = .toFlow r) :
    containsSub ",OK".toList (pyRstripChars ['$'] (pyStrip data)) = true ∨
      containsSub ",Error,".toList (pyRstripChars ['$'] (pyStrip data)) = true := by
  simp only [handle_received_data] at h
  split at h
  · cases h
  · split at h
    · left; assumption
    · split at h
      · right; assumption
      · split at h <;> cases h

/-- **C5 (counterexample).** In EFEM_022 a frame matching the outstanding
command whose details contain neither token can *satisfy* the request: the
frame `Load,Loadport1,OKAY$` (details `Loadport1`, `OKAY` — the token `OK`
does not occur among them) contains the substring `",OK"`, so
`handle_received_data` hands it to the waiting flow thread and
`_send_cmd_and_wait` returns status `"OK"`, completing the step — rather than
leaving the waiter waiting. -/
theorem c5_nonOK_counterexample :
    firstField "Load,Loadport1,OKAY$".toList = "Load".toList ∧
      okTok ∉ frameDetails "Load,Loadport1,OKAY$".toList ∧
      errTok ∉ frameDetails "Load,Loadport1,OKAY$".toList ∧
      handle_received_data "Load,Loadport1,OKAY$".toList =
        .toFlow "Load,Loadport1,OKAY$".toList ∧
      sendCmdAndWaitStatus (some "Load,Loadport1,OKAY$".toList) =
        (some "Load,Loadport1,OKAY$".toList, .ok) := by
  refine ⟨by decide, by decide, by decide, by decide, by decide⟩

/-- **C5 (amended).** In EFEM_015, a frame matching the outstanding command
whose details contain neither the token `OK` nor the token `Error` leaves the
correlation state untouched: the PendingRequest remains outstanding and the
waiter keeps waiting. In EFEM_022, classification is by substring: a message
containing neither `",OK"` nor `",Error,"` is never delivered to the waiting
flow thread (it is logged as unidentified and dropped, so that waiter also
keeps waiting), but a message containing `",OK"` inside a longer detail such
as `OKAY` satisfies the request (see the counterexample). -/
theorem c5_neither_token (s : EngineSt) (m : PyStr)
    (hok : okTok ∉ frameDetails m) (herr : errTok ∉ frameDetails m) :
    (process_received_message s m).1 = s ∧
      (∀ (data r : PyStr), handle_received_data data = .toFlow r →
        containsSub ",OK".toList (pyRstripChars ['$'] (pyStrip data)) = true ∨
          containsSub ",Error,".toList (pyRstripChars ['$'] (pyStrip data)) = true) :=
  ⟨process_neither_token s m hok herr, route_toFlow_has_token⟩

/-- Witness for C5: a `Ready` reply to an outstanding `Load` request leaves the
wait state untouched. -/
theorem c5_neither_token_witness :
    (process_received_message ⟨true, some "Load".toList, none, false⟩
        "Load,Loadport1,Ready$".toList).1 = ⟨true, some "Load".toList, none, false⟩ :=
  (c5_neither_token ⟨true, some "Load".toList, none, false⟩
    "Load,Loadport1,Ready$".toList (by decide) (by decide)).1

/-! ## Sequence import/export (EFEM_015.py, lines 830-852)

```python
def import_sequence(self):
    with open(filepath, 'r', encoding='utf-8') as f: commands = f.readlines()
    self.sequence_listbox.delete(0, END)
    for cmd in commands:
        cmd = cmd.strip()
        if cmd and not cmd.startswith(';'): self.sequence_listbox.insert(END, cmd)

def export_sequence(self):
    commands = self.sequence_listbox.get(0, END)
    with open(filepath, 'w', encoding='utf-8') as f:
        for cmd in commands: f.write(cmd + '\n')
```
`readlines` splits the file content on `'\n'` (keeping the terminators, which
the subsequent `strip()` removes, and yielding no final empty line); stripping
and filtering a possible trailing empty part is a no-op, so importing the
content is `split('\n')` + `strip` + the blank/`';'` filter. -/

/-- The sequence list produced by importing file content. -/
def import_sequence (content : PyStr) : List PyStr :=
  ((pySplit '\n' content).map pyStrip).filter
    fun cmd => !cmd.isEmpty && !(cmd.headD ' ' == ';')

/-- The file content produced by exporting a sequence list. -/
def export_sequence (cmds : List PyStr) : PyStr :=
  (cmds.map (· ++ ['\n'])).flatten

/-- Trailing-newline normalisation ("byte-identical modulo trailing newline"). -/
def stripTrailingNewlines (s : PyStr) : PyStr :=
  (s.reverse.dropWhile (· = '\n')).reverse

theorem pySplit_no_sep {sep : Char} {l : PyStr} (h : sep ∉ l) : pySplit sep l = [l] := by
  induction l with
  | nil => rfl
  | cons c cs ih =>
    have hc : c ≠ sep := fun hc => h (hc ▸ List.mem_cons_self c cs)
    have hcs : sep ∉ cs := fun hm => h (List.mem_cons_of_mem c hm)
    simp [pySplit, hc, ih hcs]

theorem pySplit_append_sep {sep : Char} {l rest : PyStr} (h : sep ∉ l) :
    pySplit sep (l ++ sep :: rest) = l :: pySplit sep rest := by
  induction l with
  | nil => simp [pySplit]
  | cons c cs ih =>
    have hc : c ≠ sep := fun hc => h (hc ▸ List.mem_cons_self c cs)
    have hcs : sep ∉ cs := fun hm => h (List.mem_cons_of_mem c hm)
    simp [pySplit, hc, ih hcs]

theorem pySplit_pyJoin {lines : List PyStr} (hne : lines ≠ [])
    (h : ∀ l ∈ lines, '\n' ∉ l) : pySplit '\n' (pyJoin '\n' lines) = lines := by
  induction lines with
  | nil => exact absurd rfl hne
  | cons l ls ih =>
    cases ls with
    | nil => exact pySplit_no_sep (h l (List.mem_cons_self l []))
    | cons l2 ls2 =>
      have h1 : '\n' ∉ l := h l (List.mem_cons_self l _)
      calc pySplit '\n' (pyJoin '\n' (l :: l2 :: ls2))
          = pySplit '\n' (l ++ '\n' :: pyJoin '\n' (l2 :: ls2)) := rfl
        _ = l :: pySplit '\n' (pyJoin '\n' (l2 :: ls2)) := pySplit_append_sep h1
        _ = l :: (l2 :: ls2) := by
            rw [ih (by simp) fun x hx => h x (List.mem_cons_of_mem l hx)]

theorem export_eq_join {cmds : List PyStr} (hne : cmds ≠ []) :
    export_sequence cmds = pyJoin '\n' cmds ++ ['\n'] := by
  induction cmds with
  | nil => exact absurd rfl hne
  | cons c cs ih =>
    cases cs with
    | nil => simp [export_sequence, pyJoin]
    | cons c2 cs2 =>
      calc export_sequence (c :: c2 :: cs2)
          = c ++ ['\n'] ++ export_sequence (c2 :: cs2) := by
            simp [export_sequence]
        _ = c ++ ['\n'] ++ (pyJoin '\n' (c2 :: cs2) ++ ['\n']) := by rw [ih (by simp)]
        _ = pyJoin '\n' (c :: c2 :: cs2) ++ ['\n'] := by simp [pyJoin]

theorem stripTrailing_append_newline (s : PyStr) :
    stripTrailingNewlines (s ++ ['\n']) = stripTrailingNewlines s := by
  simp [stripTrailingNewlines]

/-- **C7 (counterexample).** Import does not preserve blank lines or
comment-marker lines: the two-command file `"A\n\nB"` (blank middle line)
exports back as `"A\nB\n"`, which differs from the original even after
trailing-newline normalisation; a line starting with `';'` is likewise dropped
on import. -/
theorem c7_roundtrip_counterexample :
    stripTrailingNewlines (export_sequence (import_sequence "A\n\nB".toList)) ≠
        stripTrailingNewlines "A\n\nB".toList ∧
      export_sequence (import_sequence "A\n\nB".toList) = "A\nB\n".toList ∧
      import_sequence ";note\nA".toList = ["A".toList] := by
  refine ⟨by decide, by decide, by decide⟩

/-- **C7 (amended).** Import drops blank lines and lines starting with `';'`
and strips surrounding whitespace from every line; the import→export
round-trip is the identity modulo trailing-newline normalisation exactly on
files whose every line is already stripped, non-blank, does not start with
`';'` (and contains no embedded newline). -/
theorem c7_roundtrip (lines : List PyStr)
    (h : ∀ l ∈ lines, pyStrip l = l ∧ l ≠ [] ∧ l.headD ' ' ≠ ';' ∧ '\n' ∉ l) :
    stripTrailingNewlines (export_sequence (import_sequence (pyJoin '\n' lines))) =
      stripTrailingNewlines (pyJoin '\n' lines) := by
  cases hne : lines with
  | nil => decide
  | cons l0 ls0 =>
    rw [← hne]
    have hlines : lines ≠ [] := by rw [hne]; simp
    have himp : import_sequence (pyJoin '\n' lines) = lines := by
      unfold import_sequence
      rw [pySplit_pyJoin hlines fun l hl => (h l hl).2.2.2]
      have hmap : lines.map pyStrip = lines := by
        have := List.map_congr_left (fun l hl => (h l hl).1)
        simpa using this
      rw [hmap]
      rw [List.filter_eq_self.mpr]
      intro a ha
      rcases h a ha with ⟨_, h2, h3, _⟩
      rw [List.headD_eq_head?_getD] at h3
      simp [h2, h3]
    rw [himp, export_eq_join hlines, stripTrailing_append_newline]

/-- Witness for C7 on the two-line file `"A\nB"`. -/
theorem c7_roundtrip_witness :
    stripTrailingNewlines
        (export_sequence (import_sequence (pyJoin '\n' ["A".toList, "B".toList]))) =
      stripTrailingNewlines (pyJoin '\n' ["A".toList, "B".toList]) :=
  c7_roundtrip ["A".toList, "B".toList] (by
    intro l hl
    rcases List.mem_cons.mp hl with h1 | h1
    · subst h1; decide
    · rw [List.mem_singleton] at h1; subst h1; decide)

/-! ## Wait-step polling (EFEM_015.py lines 564-576; efem_gui_tester.py lines 479-489)

EFEM_015's sequence thread:
```python
end_time = time.time() + ms / 1000.0
while time.time() < end_time:
    if sequence_stop_flag.is_set(): break
    time.sleep(0.1)
if sequence_stop_flag.is_set(): ... break    # "等待被中斷" → run reports stopped
```
efem_gui_tester's sequence thread:
```python
delay = float(parts[1].strip())
time.sleep(delay)
```
Time is discretised into the loop's 0.1 s polling quantum: `durTicks` is the
wait duration in polling intervals and `stopAt` the tick at which the stop
flag becomes set (if ever).  The gui-tester variant performs one
uninterruptible sleep of the whole duration and its runner has no stop flag at
all, so its model takes no stop parameter. -/

/-- `sequence_stop_flag.is_set()` observed at tick `now` when the flag is set
at tick `stopAt`. -/
def stopSet (stopAt : Option Nat) (now : Nat) : Bool :=
  match stopAt with
  | none => false
  | some t => t ≤ now

/-- The EFEM_015 wait loop: while ticks remain, test the flag and sleep one
polling interval; returns the tick at which the loop exits. -/
def waitPoll015 : Nat → Nat → Option Nat → Nat
  | 0, now, _ => now
  | fuel + 1, now, stopAt =>
    if stopSet stopAt now then now else waitPoll015 fuel (now + 1) stopAt

/-- A full EFEM_015 `Wait` step: exit tick, and whether the post-loop flag
check interrupted the run (the `break` that makes the run report stopped). -/
def wait015 (durTicks : Nat) (stopAt : Option Nat) : Nat × Bool :=
  let exit := waitPoll015 durTicks 0 stopAt
  (exit, stopSet stopAt exit)

/-- The efem_gui_tester `Wait` step: one uninterruptible sleep of the full
duration; never interrupted. -/
def waitGuiTester (durTicks : Nat) : Nat × Bool := (durTicks, false)

theorem waitPoll015_stop (fuel now t : Nat) (h1 : now ≤ t) (h2 : t < now + fuel) :
    waitPoll015 fuel now (some t) = t := by
  induction fuel generalizing now with
  | zero => omega
  | succ n ih =>
    by_cases hnow : t ≤ now
    · have : now = t := by omega
      simp [waitPoll015, stopSet, hnow, this]
    · have hss : stopSet (some t) now = false := by
        simp only [stopSet, decide_eq_false_iff_not]
        omega
      simp only [waitPoll015, hss, Bool.false_eq_true, if_false]
      exact ih (now + 1) (by omega) (by omega)

/-- **C8 (counterexample).** For `Wait,500` (5 polling intervals) with the stop
signal set at 100 ms (tick 1), the claim requires the run to stop within one
polling interval — but the efem_gui_tester variant cited by the claim sleeps
the full duration in one uninterruptible `time.sleep` (its runner has no
cancellation flag), exiting only at tick 5 and never reporting an
interruption; EFEM_015's polling loop, by contrast, exits at tick 1. -/
theorem c8_wait_counterexample :
    waitGuiTester 5 = (5, false) ∧ wait015 5 (some 1) = (1, true) ∧ ¬ (5 ≤ 1 + 1) := by
  refine ⟨by decide, by decide, by decide⟩

/-- **C8 (amended).** In EFEM_015's sequence runner a `Wait` step polls the
cancellation flag every 0.1 s: whenever the stop flag is set at tick `t` before
the wait's `dur` ticks elapse, the loop exits at tick `t` (within one polling
interval of the stop) with the interrupted flag set, so the run breaks and
reports stopped; the efem_gui_tester variant instead sleeps the full duration
without polling and can never be interrupted. -/
theorem c8_wait_polling (dur t : Nat) (h : t < dur) :
    wait015 dur (some t) = (t, true) ∧ (∀ d, waitGuiTester d = (d, false)) := by
  constructor
  · unfold wait015
    rw [waitPoll015_stop dur 0 t (Nat.zero_le t) (by omega)]
    simp [stopSet]
  · intro d; rfl

/-- Witness for C8 at `Wait,500` with stop at tick 1. -/
theorem c8_wait_polling_witness : wait015 5 (some 1) = (1, true) :=
  (c8_wait_polling 5 1 (by decide)).1

/-! ## EFEM_015 sequence run and cancellation
(`EfemApp._execute_sequence_thread`, lines 549-634)

One pass over the step list, for a connected session (a connection loss sets
the stop flag and aborts; it is outside this claim):

```python
for i, cmd_line in enumerate(commands):
    if sequence_stop_flag.is_set(): log("序列執行已停止。"); break       # line 555
    ...
    if not cmd_line or cmd_line.startswith('#'): time.sleep(0.05); continue
    if cmd_line.lower().startswith("wait,"):
        while time.time() < end_time:
            if sequence_stop_flag.is_set(): break
            time.sleep(0.1)
        if sequence_stop_flag.is_set(): log("等待被中斷。"); break       # line 573
        continue
    ... register; send (failure: set flag, break) ...
    event_set = command_result_event.wait(timeout=20)
    waiting_for_response = False; last_sent_command_base = None
    if sequence_stop_flag.is_set(): log("等待期間序列被停止。"); break    # line 602
    if event_set:
        if command_result == "OK": continue (after 0.2s)
        else: sequence_stop_flag.set(); break                            # Error/unknown
    else: command_result = "Timeout"; sequence_stop_flag.set(); break
...
finally:
    if not sequence_stop_flag.is_set(): log("--- 指令序列執行完畢 ---")   # line 634
```

Every `sequence_stop_flag.is_set()` call is one observation of the monotone
stop flag; observations are numbered by a counter `k`, and `stopAt = some j`
means the externally set flag is first visible at observation `j` (`stopSet`
from the wait-step model above).  Lines 559-567 classify each line (stripped
blank/`'#'` comment, `Wait,ms` with `ms/100` polling slices, or a device
command); the classified step list is the runner's input, and each command
step draws its send/response outcome from a script list.  The `cycle` wrapper
only re-runs this same pass (and the completion message can only be reached
with `cycle` off), so the pass carries the whole stop behaviour. -/

/-- One classified line of the sequence list (lines 559-567). -/
inductive SeqStep
  | comment
  | wait (durTicks : Nat)
  | invoke
deriving DecidableEq

/-- Outcome of one command step's send and response wait. -/
inductive CmdEv
  | sendFail
  | respOk
  | respErr
  | respTimeout
deriving DecidableEq

/-- What the pass reports when it ends: one of the stop messages (lines 555,
573, 602), an error abort (send failure, error reply, unknown result or
timeout — all of which set the flag themselves), the completion message of
line 634, or a quiet end (the flag became set only after the last step, so
the completion message is suppressed but no stop message was printed). -/
inductive SeqReport
  | stopped
  | error
  | completed
  | quietEnd
deriving DecidableEq

/-- One pass of `_execute_sequence_thread` over classified steps. -/
def runSeq015Pass (stopAt : Option Nat) : List SeqStep → List CmdEv → Nat → SeqReport
  | [], _evs, k =>
    -- the for-loop ended naturally; line 634 prints completion iff flag unset
    if stopSet stopAt k then .quietEnd else .completed
  | step :: rest, evs, k =>
    if stopSet stopAt k then .stopped            -- line 555
    else
      match step with
      | .comment => runSeq015Pass stopAt rest evs (k + 1)
      | .wait n =>
        let exit := waitPoll015 n (k + 1) stopAt -- one observation per 0.1s slice
        if stopSet stopAt exit then .stopped     -- line 573
        else runSeq015Pass stopAt rest evs (exit + 1)
      | .invoke =>
        match evs.headD .respTimeout with
        | .sendFail => .error                    -- line 593: flag set, abort
        | ev =>
          if stopSet stopAt (k + 1) then .stopped  -- line 602, before result handling
          else
            match ev with
            | .respOk => runSeq015Pass stopAt rest evs.tail (k + 2)
            | _ => .error                        -- lines 610-619: flag set, abort

/-- **C6 (counterexample).** A run of `FlowControlThread.run` in which the stop
signal arrives while step 5 is waiting for its response (the wait yields the
`"STOP_REQUESTED"` sentinel that `stop()` injects) terminates with final status
code `-1` — the `Error` terminal state (`流程錯誤中止`) — not `-2` (`Stopped`):
`_send_cmd_and_wait` returns status `"Stopped"`, and `run` treats every
non-`"OK"` status as `raise RuntimeError`, whose handler sets `-1`. -/
theorem c6_stop_counterexample :
    runNormalFlow ⟨[], [some "STOP_REQUESTED".toList], []⟩ = -1 ∧
      ((-1 : Int) ≠ -2 ∧ (-1 : Int) ≠ 99) := by
  refine ⟨by decide, by decide, by decide⟩

/-- **C6 (amended).** When the cooperative stop signal is set during an active
run: EFEM_015's SequenceRunner terminates reporting stopped (not completed,
not error) at whichever check point first observes the flag — the step
boundary (line 555), a wait slice (line 573), or the post-response-wait check
(line 602), which precedes the result handling, so a stop seen there reports
stopped even when the concurrent reply was an error — and the completion
message is printed only when the flag was never set.  EFEM_022's
`FlowControlThread` run terminates and never reports `Completed` (99), but the
terminal status depends on where the stop is observed: a stop observed at the
wafer-loop boundary raises `StopIteration` and the run reports `Stopped` (-2),
while a stop arriving while a step waits for a response yields status
`"Stopped"`, which the step guard converts to `RuntimeError`, so that run
reports `Error` (-1). -/
theorem c6_stop_behavior :
    (∀ (stopAt : Option Nat) (steps : List SeqStep) (evs : List CmdEv) (k : Nat)
        (step : SeqStep), stopSet stopAt k = true →
      runSeq015Pass stopAt (step :: steps) evs k = .stopped) ∧
    (∀ (j k n : Nat) (rest : List SeqStep) (evs : List CmdEv),
      k < j → j ≤ k + n →
      runSeq015Pass (some j) (.wait n :: rest) evs k = .stopped) ∧
    (∀ (j k : Nat) (rest : List SeqStep) (evs : List CmdEv) (ev : CmdEv),
      k < j → j ≤ k + 1 → ev ≠ .sendFail →
      runSeq015Pass (some j) (.invoke :: rest) (ev :: evs) k = .stopped) ∧
    (SeqReport.stopped ≠ .completed ∧ SeqReport.stopped ≠ .error) ∧
    runSeq015Pass none [SeqStep.invoke] [CmdEv.respOk] 0 = .completed ∧
    (∀ (mapData : PyStr) (slot : Int) (fuel : Nat) (rs : List Bool)
        (ws : List (Option PyStr)) (cs : List ConfVal),
      (waferLoop mapData slot (fuel + 1) ⟨false :: rs, ws, cs⟩).1 =
        Except.error FlowExc.stopIteration) ∧
    finalStatusFromExc .stopIteration = -2 ∧
    (∀ (ws : List (Option PyStr)) (cs : List ConfVal),
      runNormalFlow ⟨[], some "STOP_REQUESTED".toList :: ws, cs⟩ = -1) ∧
    sendCmdAndWaitStatus (some "STOP_REQUESTED".toList) = (none, .stopped) ∧
    runNormalFlow
      ⟨[true, true, true, true, true, false],
        [some "ReadFoupID,Loadport1,OK,F123$".toList,
          some "Load,Loadport1,OK$".toList,
          some "GetMapResult,Loadport1,OK,1$".toList],
        [.answer true, .answer true]⟩ = -2 := by
  refine ⟨?_, ?_, ?_, ⟨by decide, by decide⟩, by decide,
    fun mapData slot fuel rs ws cs => rfl, rfl, fun ws cs => ?_, by decide, by decide⟩
  · intro stopAt steps evs k step h
    simp [runSeq015Pass, h]
  · intro j k n rest evs h1 h2
    have hk : stopSet (some j) k = false := by
      simp only [stopSet, decide_eq_false_iff_not]; omega
    have hexit : waitPoll015 n (k + 1) (some j) = j :=
      waitPoll015_stop n (k + 1) j (by omega) (by omega)
    have hj : stopSet (some j) j = true := by simp [stopSet]
    simp [runSeq015Pass, hk, hexit, hj]
  · intro j k rest evs ev h1 h2 hsend
    have hk : stopSet (some j) k = false := by
      simp only [stopSet, decide_eq_false_iff_not]; omega
    have hk1 : stopSet (some j) (k + 1) = true := by
      simp only [stopSet, decide_eq_true_eq]; omega
    cases ev with
    | sendFail => exact absurd rfl hsend
    | respOk => simp [runSeq015Pass, hk, hk1]
    | respErr => simp [runSeq015Pass, hk, hk1]
    | respTimeout => simp [runSeq015Pass, hk, hk1]
  · simp [runNormalFlow, send_cmd_and_wait, readRun, takeWait, sendCmdAndWaitStatus]

/-- Witness for C6: a stop first visible during the second wait slice of a
`Wait,500` step reports stopped, and a stop first visible at the
post-response check reports stopped even though the reply was an error. -/
theorem c6_stop_behavior_witness :
    runSeq015Pass (some 2) [SeqStep.wait 5] [] 0 = SeqReport.stopped ∧
      runSeq015Pass (some 1) [SeqStep.invoke] [CmdEv.respErr] 0 = SeqReport.stopped :=
  ⟨c6_stop_behavior.2.1 2 0 5 [] [] (by decide) (by decide),
    c6_stop_behavior.2.2.1 1 0 [] [] CmdEv.respErr (by decide) (by decide) (by decide)⟩

/-! ## Recovery flow slot assignment (EFEM_022.py, `RecoveryFlowThread`, lines 614-701)

```python
def find_empty_slots(self, map_data):
    slots = []
    if map_data and map_data != "解析錯誤":
        map_list = map_data.split(',')
        if len(map_list) == 25:
            for i in range(25):
                slot_num = 25 - i
                if map_list[i] == '0':
                    slots.append(slot_num)
    return slots
```
In `run`, the robot-arm placement (step 109) and the aligner placement
(step 116) each take `target_slot = self.empty_slots_lp1.pop(0)` — the head of
the computed list — and a missing empty slot raises `RuntimeError`
("無空位可放"). -/

def find_empty_slots (map_data : PyStr) : List Nat :=
  if map_data ≠ [] ∧ map_data ≠ parseErrStr then
    let map_list := pySplit ',' map_data
    if map_list.length = 25 then
      (List.range 25).filterMap fun i =>
        if map_list.getD i [] = "0".toList then some (25 - i) else none
    else []
  else []

/-- The slot indices consumed by the placements of one `RecoveryFlowThread.run`
(step 109 when the robot holds a wafer, step 116 when the aligner does); each
placement pops the head of the empty-slot list, and an exhausted list aborts
the run. -/
def recoveryPlacements (robotHasWafer alignerHasWafer : Bool) (emptySlots : List Nat) :
    Except Unit (List Nat) :=
  let step1 : Except Unit (List Nat × List Nat) :=
    if robotHasWafer then
      match emptySlots with
      | [] => .error ()
      | s :: rest => .ok ([s], rest)
    else .ok ([], emptySlots)
  match step1 with
  | .error _ => .error ()
  | .ok (assigned, remaining) =>
    if alignerHasWafer then
      match remaining with
      | [] => .error ()
      | s :: _ => .ok (assigned ++ [s])
    else .ok assigned

theorem find_empty_slots_nodup (m : PyStr) : (find_empty_slots m).Nodup := by
  simp only [find_empty_slots]
  split
  · split
    · rename_i h25
      refine List.Nodup.filterMap ?_ (List.nodup_range 25)
      intro i j b hbi hbj
      have hi : i < 25 := by
        by_contra hge
        have : (pySplit ',' m).getD i [] = [] :=
          List.getD_eq_default _ _ (by omega)
        rw [this] at hbi
        simp at hbi
      have hj : j < 25 := by
        by_contra hge
        have : (pySplit ',' m).getD j [] = [] :=
          List.getD_eq_default _ _ (by omega)
        rw [this] at hbj
        simp at hbj
      have key : ∀ k, b ∈ (if (pySplit ',' m).getD k [] = "0".toList
          then some (25 - k) else none) → b = 25 - k := by
        intro k hk
        split at hk
        · simp at hk; omega
        · simp at hk
      have hbi' := key i hbi
      have hbj' := key j hbj
      omega
    · exact List.nodup_nil
  · exact List.nodup_nil

theorem recoveryPlacements_nodup (r a : Bool) (slots : List Nat) (assigned : List Nat)
    (hnd : slots.Nodup) (h : recoveryPlacements r a slots = .ok assigned) :
    assigned.Nodup := by
  cases r <;> cases a <;> cases slots with
  | nil =>
    first
      | (simp [recoveryPlacements] at h; subst h; simp)
      | simp [recoveryPlacements] at h
  | cons s rest =>
    first
      | (simp [recoveryPlacements] at h; subst h; simp)
      | (cases rest with
          | nil => simp [recoveryPlacements] at h
          | cons s2 rest2 =>
            simp [recoveryPlacements] at h
            subst h
            have : s ≠ s2 := by
              rcases List.nodup_cons.mp hnd with ⟨hs, _⟩
              exact fun he => hs (he ▸ List.mem_cons_self s2 rest2)
            simp [this])

/-- **C9.** Within a single `RecoveryFlowThread` run, no empty slot index is
ever assigned to two different wafer placements: whenever the run performs its
placements (robot-arm rescue and/or aligner rescue) on the empty-slot list
computed by `find_empty_slots`, the slots consumed by the `SmartPut` commands
are pairwise distinct. -/
theorem c9_recovery_distinct_slots (m : PyStr) (robot aligner : Bool)
    (assigned : List Nat)
    (h : recoveryPlacements robot aligner (find_empty_slots m) = .ok assigned) :
    assigned.Nodup :=
  recoveryPlacements_nodup robot aligner (find_empty_slots m) assigned
    (find_empty_slots_nodup m) h

/-- Witness for C9: both arms loaded, two empty slots — the placements use
slots 25 and 24, which are distinct. -/
theorem c9_recovery_distinct_slots_witness :
    ([25, 24] : List Nat).Nodup :=
  c9_recovery_distinct_slots
    "0,0,1,1,1,1,1,1,1,1,1,1,1,1,1,1,1,1,1,1,1,1,1,1,1".toList true true
    [25, 24] (by rfl)

end Efem
